import Mathlib

/-!
Shallow embedding of `.github/files/auto-merge-successful-pr.py`: a one-pass
auto-merge batch job.  The script lists open pull requests, enriches each with
mergeability / base-branch / author data, filters them through an eligibility
pipeline (label-or-bot, mergeability, check-readiness) and, for each ready PR,
either approves+merges it or rebases it when another PR already merged into the
same base branch during this run.

External effects (the `gh` CLI invoked through `subprocess.run` inside `sh`) are
modelled by a `World` oracle mapping a command string to its exit code, captured
stdout and stderr, together with abstract (total) parse functions standing for
`json.loads` on the three query outputs.  Every `sh` call is recorded in a trace
of `TraceEvent`s: `ran cmd` for a live execution, `wouldRun cmd` for the dry-run
branch that only logs.  Python generators compose into a single pass, so the
generator pipeline is embedded both as per-stage list transformations (each
generator as an order-preserving list function) and as the fused per-PR loop
that `process_pull_requests` actually executes, with the traces interleaved as
the lazy evaluation interleaves them.
-/

/-- Raw check record as decoded from `gh pr checks <n> --json bucket,name`
(the Python `dict`).  `PullRequestChecks.from_list` appends these raw records,
not the `PullRequestCheck` values built from them. -/
structure RawCheck where
  name : String
  bucket : String
deriving DecidableEq, Repr

/-- `@dataclass PullRequestCheck`: one status check result (name, bucket tag). -/
structure PullRequestCheck where
  name : String
  bucket : String
deriving DecidableEq, Repr

/-- `PullRequestCheck(**check_obj)`: dataclass construction from the raw dict. -/
def PullRequestCheck.ofRaw (r : RawCheck) : PullRequestCheck :=
  ⟨r.name, r.bucket⟩

/-- `@dataclass PullRequestChecks`: checks of one PR partitioned into five
bucket sequences.  The Python code annotates the fields as
`list[PullRequestCheck]` but actually stores the raw dicts (`check_obj`), so
the fields hold `RawCheck`. -/
structure PullRequestChecks where
  passed : List RawCheck
  failed : List RawCheck
  pending : List RawCheck
  skipping : List RawCheck
  cancel : List RawCheck
deriving DecidableEq, Repr

/-- Loop body of `PullRequestChecks.from_list`: read the bucket tag of the
constructed `PullRequestCheck` and append the raw record to the matching
sequence; unrecognized tags fall through every branch. -/
def fromListStep (acc : PullRequestChecks) (check_obj : RawCheck) : PullRequestChecks :=
  let check := PullRequestCheck.ofRaw check_obj
  if check.bucket == "pass" then
    ⟨acc.passed ++ [check_obj], acc.failed, acc.pending, acc.skipping, acc.cancel⟩
  else if check.bucket == "fail" then
    ⟨acc.passed, acc.failed ++ [check_obj], acc.pending, acc.skipping, acc.cancel⟩
  else if check.bucket == "pending" then
    ⟨acc.passed, acc.failed, acc.pending ++ [check_obj], acc.skipping, acc.cancel⟩
  else if check.bucket == "skipping" then
    ⟨acc.passed, acc.failed, acc.pending, acc.skipping ++ [check_obj], acc.cancel⟩
  else if check.bucket == "cancel" then
    ⟨acc.passed, acc.failed, acc.pending, acc.skipping, acc.cancel ++ [check_obj]⟩
  else acc

/-- `PullRequestChecks.from_list`: the `for check_obj in checks` loop starting
from five empty sequences. -/
def PullRequestChecks.from_list (checks : List RawCheck) : PullRequestChecks :=
  checks.foldl fromListStep ⟨[], [], [], [], []⟩

/-- A bucket tag the classifier recognizes. -/
def recognizedBucket (c : RawCheck) : Bool :=
  c.bucket == "pass" || c.bucket == "fail" || c.bucket == "pending" ||
    c.bucket == "skipping" || c.bucket == "cancel"

/-- `@dataclass PullRequestAuthor`. -/
structure PullRequestAuthor where
  is_bot : Bool
  login : String
  id : Option String
  name : Option String
deriving DecidableEq, Repr

/-- One entry of a PR's `labels` list (a dict with a `name` key). -/
structure Label where
  name : String
deriving DecidableEq, Repr

/-- `@dataclass PullRequest`. -/
structure PullRequest where
  number : Int
  author : PullRequestAuthor
  title : String
  labels : List Label
  mergeable : String
  baseRefName : String
  checks : Option PullRequestChecks
deriving DecidableEq, Repr

/-- Module-level configuration read from the environment. -/
structure Config where
  APPROVE_MSG : String
  BOT_AUTHORS : List String
  DRY_RUN : Bool
  LABELS : List String
  MIN_PASSING_CHECKS : Int
deriving Repr

/- ### Eligibility pipeline stages (each Python generator as a list function) -/

/-- Per-PR decision of `match_labels_or_bot`: yield when the author is a bot in
`BOT_AUTHORS`, or when `not LABELS or not missing`. -/
def match_labels_or_bot_pass (cfg : Config) (pr : PullRequest) : Bool :=
  if pr.author.is_bot && cfg.BOT_AUTHORS.contains pr.author.login then
    true
  else
    let pr_labels := pr.labels.map Label.name
    let missing := cfg.LABELS.filter (fun req => !(pr_labels.contains req))
    cfg.LABELS.isEmpty || missing.isEmpty

/-- `match_labels_or_bot` as a transformation of the incoming sequence. -/
def match_labels_or_bot (cfg : Config) (prs : List PullRequest) : List PullRequest :=
  prs.filter (match_labels_or_bot_pass cfg)

/-- `mergeable_prs`: keep PRs whose `mergeable` field is exactly "MERGEABLE". -/
def mergeable_prs (prs : List PullRequest) : List PullRequest :=
  prs.filter (fun pr => pr.mergeable == "MERGEABLE")

/-- Outcome of the `check_prs_ready` body for one PR, distinguishing the two
skip branches (which print different messages) from the yield branch. -/
inductive ReadyOutcome where
  | pass : ReadyOutcome
  | notAllGreen : ReadyOutcome
  | tooFewChecks : Nat → ReadyOutcome
deriving DecidableEq, Repr

/-- Lines 137-147: `any_unready = len(failed) or len(pending) or len(cancel)`
(Python truthiness: any nonzero length), then the threshold comparison
`checks_passed < MIN_PASSING_CHECKS`. -/
def check_pr_outcome (cfg : Config) (checks : PullRequestChecks) : ReadyOutcome :=
  let checks_passed := checks.passed.length
  if checks.failed.length ≠ 0 ∨ checks.pending.length ≠ 0 ∨ checks.cancel.length ≠ 0 then
    ReadyOutcome.notAllGreen
  else if (checks_passed : Int) < cfg.MIN_PASSING_CHECKS then
    ReadyOutcome.tooFewChecks checks_passed
  else
    ReadyOutcome.pass

/-- The `tab`-indented log line printed by each skip branch of
`check_prs_ready` (`none` when the PR is yielded). -/
def ready_log : ReadyOutcome → Option String
  | ReadyOutcome.pass => none
  | ReadyOutcome.notAllGreen => some "skipped tests are not passing"
  | ReadyOutcome.tooFewChecks n =>
      some ("skipped passing but with too few checks (" ++ toString n ++ ")")

/-- `pr.checks = PullRequestChecks.from_list(checks)`: the single mutation of a
`PullRequest`, attaching its classified checks. -/
def setChecks (pr : PullRequest) (checks : PullRequestChecks) : PullRequest :=
  ⟨pr.number, pr.author, pr.title, pr.labels, pr.mergeable, pr.baseRefName, some checks⟩

/-- `check_prs_ready` as a transformation of the incoming sequence, with the
per-PR check fetch abstracted as `fetch` (the parsed output of
`gh pr checks <n> --json bucket,name`). -/
def check_prs_ready (cfg : Config) (fetch : Int → List RawCheck)
    (prs : List PullRequest) : List PullRequest :=
  prs.filterMap (fun pr =>
    let checks := PullRequestChecks.from_list (fetch pr.number)
    let pr := setChecks pr checks
    if check_pr_outcome cfg checks = ReadyOutcome.pass then some pr else none)

/- ### Merge coordinator (pure decision structure) -/

/-- The `merged` dict of `process_pull_requests`: base-branch name to the PR
merged into it this run (insertion-ordered association list; each key is
written at most once, when absent). -/
abbrev MergedMap := List (String × PullRequest)

/-- What the coordinator did with one ready PR. -/
inductive Decision where
  | merged : PullRequest → Decision
  | rebased : PullRequest → Decision
deriving DecidableEq, Repr

/-- The `for pr in ready` loop of `process_pull_requests`, lines 178-182,
keeping only the membership test and the `merged[pr.baseRefName] = pr`
bookkeeping of `approve_and_merge_pr` (line 160); the `sh` calls are modelled
separately in the effectful coordinator below. -/
def coordinate : List PullRequest → MergedMap → List Decision × MergedMap
  | [], merged => ([], merged)
  | pr :: rest, merged =>
    if (merged.lookup pr.baseRefName).isSome then
      (Decision.rebased pr :: (coordinate rest merged).1, (coordinate rest merged).2)
    else
      (Decision.merged pr :: (coordinate rest (merged ++ [(pr.baseRefName, pr)])).1,
       (coordinate rest (merged ++ [(pr.baseRefName, pr)])).2)

/- ### Command runner and effectful pipeline -/

deriving instance DecidableEq for Except

/-- One `sh` invocation: `ran` for a live `subprocess.run`, `wouldRun` for the
dry-run branch that only prints `Would run: ...`. -/
inductive TraceEvent where
  | ran : String → TraceEvent
  | wouldRun : String → TraceEvent
deriving DecidableEq, Repr

/-- One record of the `gh pr list ... --json number,labels,title` output. -/
structure ListedPR where
  number : Int
  labels : List Label
  title : String
deriving DecidableEq, Repr

/-- The external world: `exec` maps a command string to the process result
(returncode, stdout, stderr) of `subprocess.run`, and the three parse functions
stand for `json.loads` plus dataclass construction on the respective query
outputs (total: a malformed output would be an unhandled parse error, outside
the modelled behavior).  `parseViewOutput` yields (mergeable, baseRefName,
author). -/
structure World where
  exec : String → Int × String × String
  parseListOutput : String → List ListedPR
  parseViewOutput : String → String × String × PullRequestAuthor
  parseChecksOutput : String → List RawCheck

/-- Python `str.strip()`: drop whitespace from both ends (structurally
recursive character-list implementation). -/
def pyStrip (s : String) : String :=
  ⟨((s.data.dropWhile Char.isWhitespace).reverse.dropWhile Char.isWhitespace).reverse⟩

/-- `sh(cmd, dry_run)`: dry mode logs and returns `""`; live mode executes,
raises on non-zero exit (message carrying the command and captured stderr) and
returns stripped stdout otherwise.  The second component is the trace of this
single call. -/
def sh (exec : String → Int × String × String) (cmd : String) (dry_run : Bool) :
    Except String String × List TraceEvent :=
  if dry_run then
    (Except.ok "", [TraceEvent.wouldRun cmd])
  else
    let result := exec cmd
    if result.1 ≠ 0 then
      (Except.error ("Error running command: " ++ cmd ++ "\nError: " ++ result.2.2),
       [TraceEvent.ran cmd])
    else
      (Except.ok (pyStrip result.2.1), [TraceEvent.ran cmd])

/-- `"gh pr list --state open --json number,labels,title"` (line 89). -/
def list_cmd : String := "gh pr list --state open --json number,labels,title"

/-- `f"gh pr view {number} --json mergeable,baseRefName,author"` (line 92). -/
def view_cmd (n : Int) : String :=
  "gh pr view " ++ toString n ++ " --json mergeable,baseRefName,author"

/-- `f"gh pr checks {number} --json bucket,name"` (line 133). -/
def checks_cmd (n : Int) : String :=
  "gh pr checks " ++ toString n ++ " --json bucket,name"

/-- Replace the first occurrence of the two-character placeholder (`\x7b\x7d`)
in a character list by the argument characters. -/
def replaceFirstBrace : List Char → List Char → List Char
  | [], _ => []
  | '\x7b' :: '\x7d' :: rest, arg => arg ++ rest
  | c :: rest, arg => c :: replaceFirstBrace rest arg

/-- `str.format` with a single positional argument: replace the first
placeholder. -/
def formatOne (template arg : String) : String :=
  ⟨replaceFirstBrace template.data arg.data⟩

/-- `f'gh pr review {number} --comment -b "{APPROVE_MSG.format(number)}"'`. -/
def review_cmd (cfg : Config) (n : Int) : String :=
  "gh pr review " ++ toString n ++ " --comment -b \"" ++
    formatOne cfg.APPROVE_MSG (toString n) ++ "\""

/-- `f"gh pr merge {number} --admin --squash"` (line 157). -/
def merge_cmd (n : Int) : String :=
  "gh pr merge " ++ toString n ++ " --admin --squash"

/-- `f"gh pr update-branch {number} --rebase"` (line 166). -/
def rebase_cmd (n : Int) : String :=
  "gh pr update-branch " ++ toString n ++ " --rebase"

/-- `sorted(json.loads(prs_json), key=lambda pr: pr["number"])`: stable
ascending sort by PR number (insertion sort: a stable comparison sort, as
Python's `sorted`). -/
def sortByNumber (l : List ListedPR) : List ListedPR :=
  l.insertionSort (fun a b => a.number ≤ b.number)

/-- Enrichment done inside the `get_pull_requests` loop: the second fetch
merged into the listed record (`pr_dict.update(view)`), producing a
`PullRequest` with `checks` still absent. -/
def enrichPR (view : Int → String × String × PullRequestAuthor) (d : ListedPR) :
    PullRequest :=
  let v := view d.number
  ⟨d.number, v.2.2, d.title, d.labels, v.1, v.2.1, none⟩

/-- `get_pull_requests` as a list function over already-parsed data: sort the
listing ascending by number, then enrich each record in order. -/
def get_pull_requests (listed : List ListedPR)
    (view : Int → String × String × PullRequestAuthor) : List PullRequest :=
  (sortByNumber listed).map (enrichPR view)

/- ### Effectful coordinator and fused pipeline -/

/-- `approve_and_merge_pr(pr, merged)` / `rebase_pr(pr)` for one ready PR,
dispatched by the `if pr.baseRefName not in merged` test of
`process_pull_requests`.  Returns the updated `merged` dict (or the propagated
`sh` error) and the trace of the `sh` calls made. -/
def coordinate_one (cfg : Config) (w : World) (merged : MergedMap)
    (pr : PullRequest) : Except String MergedMap × List TraceEvent :=
  if (merged.lookup pr.baseRefName).isSome then
    ((sh w.exec (rebase_cmd pr.number) cfg.DRY_RUN).1.map (fun _ => merged),
     (sh w.exec (rebase_cmd pr.number) cfg.DRY_RUN).2)
  else
    match sh w.exec (review_cmd cfg pr.number) cfg.DRY_RUN with
    | (Except.error e, t1) => (Except.error e, t1)
    | (Except.ok _, t1) =>
      match sh w.exec (merge_cmd pr.number) cfg.DRY_RUN with
      | (Except.error e, t2) => (Except.error e, t1 ++ t2)
      | (Except.ok _, t2) => (Except.ok (merged ++ [(pr.baseRefName, pr)]), t1 ++ t2)

/-- The coordinator loop over an already-materialized ready sequence: the
`for pr in ready` loop with its `sh` effects. -/
def coordinate_all (cfg : Config) (w : World) :
    List PullRequest → MergedMap → Except String MergedMap × List TraceEvent
  | [], merged => (Except.ok merged, [])
  | pr :: rest, merged =>
    match coordinate_one cfg w merged pr with
    | (Except.error e, t) => (Except.error e, t)
    | (Except.ok m, t) =>
      ((coordinate_all cfg w rest m).1, t ++ (coordinate_all cfg w rest m).2)

/-- One full pass of the fused generator pipeline for a single listed record:
detail fetch (`gh pr view`, always live), label-or-bot filter, mergeability
filter, check fetch (`gh pr checks`, always live) and classification, readiness
filter, then the coordinator body.  A filtered-out PR leaves `merged`
unchanged. -/
def runPR (cfg : Config) (w : World) (merged : MergedMap) (d : ListedPR) :
    Except String MergedMap × List TraceEvent :=
  match sh w.exec (view_cmd d.number) false with
  | (Except.error e, t1) => (Except.error e, t1)
  | (Except.ok out, t1) =>
    let v := w.parseViewOutput out
    let pr : PullRequest := ⟨d.number, v.2.2, d.title, d.labels, v.1, v.2.1, none⟩
    if !match_labels_or_bot_pass cfg pr then
      (Except.ok merged, t1)
    else if !(pr.mergeable == "MERGEABLE") then
      (Except.ok merged, t1)
    else
      match sh w.exec (checks_cmd pr.number) false with
      | (Except.error e, t2) => (Except.error e, t1 ++ t2)
      | (Except.ok cout, t2) =>
        let checks := PullRequestChecks.from_list (w.parseChecksOutput cout)
        if check_pr_outcome cfg checks = ReadyOutcome.pass then
          ((coordinate_one cfg w merged (setChecks pr checks)).1,
           t1 ++ t2 ++ (coordinate_one cfg w merged (setChecks pr checks)).2)
        else
          (Except.ok merged, t1 ++ t2)

/-- The fused pipeline over the sorted listing: Python's lazy generators
compose into exactly this per-record pass (each yielded value flows through
every downstream stage before the next listing record is fetched). -/
def processList (cfg : Config) (w : World) :
    List ListedPR → MergedMap → Except String MergedMap × List TraceEvent
  | [], merged => (Except.ok merged, [])
  | d :: rest, merged =>
    match runPR cfg w merged d with
    | (Except.error e, t) => (Except.error e, t)
    | (Except.ok m, t) =>
      ((processList cfg w rest m).1, t ++ (processList cfg w rest m).2)

/-- `process_pull_requests()`: the listing query, the sort, then the fused
pipeline starting from an empty `merged` dict. -/
def process_pull_requests (cfg : Config) (w : World) :
    Except String MergedMap × List TraceEvent :=
  match sh w.exec list_cmd false with
  | (Except.error e, t0) => (Except.error e, t0)
  | (Except.ok out, t0) =>
    ((processList cfg w (sortByNumber (w.parseListOutput out)) []).1,
     t0 ++ (processList cfg w (sortByNumber (w.parseListOutput out)) []).2)


/-- A trace event of one of the three query commands, executed live. -/
def queryEvent (e : TraceEvent) : Prop :=
  e = TraceEvent.ran list_cmd ∨ (∃ n, e = TraceEvent.ran (view_cmd n)) ∨
    ∃ n, e = TraceEvent.ran (checks_cmd n)

/-- A trace event of one of the three mutating commands, suppressed by dry-run
mode (logged, never executed). -/
def mutationDryEvent (cfg : Config) (e : TraceEvent) : Prop :=
  (∃ n, e = TraceEvent.wouldRun (review_cmd cfg n)) ∨
    (∃ n, e = TraceEvent.wouldRun (merge_cmd n)) ∨
    ∃ n, e = TraceEvent.wouldRun (rebase_cmd n)

/-- Every command executed live in the trace exited with status 0. -/
def okEvents (w : World) (t : List TraceEvent) : Prop :=
  ∀ c, TraceEvent.ran c ∈ t → (w.exec c).1 = 0

/- ### Concrete example data for closed-scenario theorems and witnesses -/

/-- Replace the `DRY_RUN` flag of a configuration. -/
def setDry (cfg : Config) (b : Bool) : Config :=
  ⟨cfg.APPROVE_MSG, cfg.BOT_AUTHORS, b, cfg.LABELS, cfg.MIN_PASSING_CHECKS⟩

/-- A human (non-bot) author used by the concrete scenarios. -/
def exAuthor : PullRequestAuthor := ⟨false, "alice", none, none⟩

/-- Configuration of the two-PR scenario: required labels `["automerge"]`,
empty `BOT_AUTHORS`, `MIN_PASSING_CHECKS = 1`, live mode, default
`APPROVE_MSG`. -/
def cfgScenario : Config :=
  ⟨"All status checks passed for PR #\x7b\x7d.", [], false, ["automerge"], 1⟩

/-- The same configuration with `DRY_RUN` set. -/
def cfgScenarioDry : Config := setDry cfgScenario true

/-- World of the two-PR scenario: every command succeeds; the listing returns
PR 5 (labelled "automerge") and PR 7 (no labels), both targeting "main" and
both with two passing checks. -/
def wScenario : World :=
  ⟨fun c =>
      (0,
       if c = list_cmd then "LIST"
       else if c = view_cmd 5 then "VIEW5"
       else if c = view_cmd 7 then "VIEW7"
       else if c = checks_cmd 5 then "CHECKS5"
       else if c = checks_cmd 7 then "CHECKS7"
       else "",
       ""),
   fun s => if s = "LIST" then [⟨5, [⟨"automerge"⟩], "five"⟩, ⟨7, [], "seven"⟩] else [],
   fun s =>
     if s = "VIEW5" then ("MERGEABLE", "main", exAuthor)
     else if s = "VIEW7" then ("MERGEABLE", "main", exAuthor)
     else ("", "", exAuthor),
   fun s =>
     if s = "CHECKS5" then [⟨"build", "pass"⟩, ⟨"test", "pass"⟩]
     else if s = "CHECKS7" then [⟨"build", "pass"⟩, ⟨"test", "pass"⟩]
     else []⟩

/-- A world whose every command fails with exit code 1 and stderr "boom". -/
def wFailing : World :=
  ⟨fun _ => (1, "", "boom"), fun _ => [], fun _ => ("", "", exAuthor), fun _ => []⟩

/-- A world whose every command succeeds with empty output. -/
def wEmpty : World :=
  ⟨fun _ => (0, "", ""), fun _ => [], fun _ => ("", "", exAuthor), fun _ => []⟩

/-- Two ready PRs sharing base branch "main", used by coordinator witnesses. -/
def prMain1 : PullRequest := ⟨1, exAuthor, "one", [], "MERGEABLE", "main", none⟩

/-- Second ready PR targeting "main". -/
def prMain2 : PullRequest := ⟨2, exAuthor, "two", [], "MERGEABLE", "main", none⟩

/- ### Generalized accumulator lemma for the classifier -/

theorem foldl_fromListStep (cs : List RawCheck) (acc : PullRequestChecks) :
    cs.foldl fromListStep acc =
      ⟨acc.passed ++ cs.filter (fun c => c.bucket == "pass"),
       acc.failed ++ cs.filter (fun c => c.bucket == "fail"),
       acc.pending ++ cs.filter (fun c => c.bucket == "pending"),
       acc.skipping ++ cs.filter (fun c => c.bucket == "skipping"),
       acc.cancel ++ cs.filter (fun c => c.bucket == "cancel")⟩ := by
  induction cs generalizing acc with
  | nil => simp
  | cons c rest ih =>
    simp only [List.foldl_cons, ih]
    by_cases h1 : c.bucket = "pass" <;> by_cases h2 : c.bucket = "fail" <;>
      by_cases h3 : c.bucket = "pending" <;> by_cases h4 : c.bucket = "skipping" <;>
      by_cases h5 : c.bucket = "cancel" <;>
      simp_all [fromListStep, PullRequestCheck.ofRaw, List.filter_cons]

theorem from_list_eq_filters (cs : List RawCheck) :
    PullRequestChecks.from_list cs =
      ⟨cs.filter (fun c => c.bucket == "pass"),
       cs.filter (fun c => c.bucket == "fail"),
       cs.filter (fun c => c.bucket == "pending"),
       cs.filter (fun c => c.bucket == "skipping"),
       cs.filter (fun c => c.bucket == "cancel")⟩ := by
  simp [PullRequestChecks.from_list, foldl_fromListStep]

/- ### Classifier theorems -/

theorem length_filter_buckets (cs : List RawCheck) :
    (cs.filter (fun c => c.bucket == "pass")).length +
      (cs.filter (fun c => c.bucket == "fail")).length +
      (cs.filter (fun c => c.bucket == "pending")).length +
      (cs.filter (fun c => c.bucket == "skipping")).length +
      (cs.filter (fun c => c.bucket == "cancel")).length =
      (cs.filter recognizedBucket).length := by
  induction cs with
  | nil => simp
  | cons c rest ih =>
    simp only [List.filter_cons, recognizedBucket]
    by_cases h1 : c.bucket = "pass" <;> by_cases h2 : c.bucket = "fail" <;>
      by_cases h3 : c.bucket = "pending" <;> by_cases h4 : c.bucket = "skipping" <;>
      by_cases h5 : c.bucket = "cancel" <;> simp_all <;> omega

/-- C3: `PullRequestChecks.from_list` partitions its input strictly by bucket
tag: each of the five sequences is exactly the subsequence of inputs carrying
that tag (hence disjoint, and order-preserving within each bucket); the bucket
lengths sum to the number of recognized-tag inputs (exhaustiveness over
recognized tags); and a check with an unrecognized tag appears in none of the
five sequences. -/
theorem classifier_partition (cs : List RawCheck) :
    ((PullRequestChecks.from_list cs).passed = cs.filter (fun c => c.bucket == "pass") ∧
      (PullRequestChecks.from_list cs).failed = cs.filter (fun c => c.bucket == "fail") ∧
      (PullRequestChecks.from_list cs).pending = cs.filter (fun c => c.bucket == "pending") ∧
      (PullRequestChecks.from_list cs).skipping = cs.filter (fun c => c.bucket == "skipping") ∧
      (PullRequestChecks.from_list cs).cancel = cs.filter (fun c => c.bucket == "cancel")) ∧
    ((PullRequestChecks.from_list cs).passed.length +
        (PullRequestChecks.from_list cs).failed.length +
        (PullRequestChecks.from_list cs).pending.length +
        (PullRequestChecks.from_list cs).skipping.length +
        (PullRequestChecks.from_list cs).cancel.length =
      (cs.filter recognizedBucket).length) ∧
    (∀ c ∈ cs, recognizedBucket c = false →
      c ∉ (PullRequestChecks.from_list cs).passed ∧
        c ∉ (PullRequestChecks.from_list cs).failed ∧
        c ∉ (PullRequestChecks.from_list cs).pending ∧
        c ∉ (PullRequestChecks.from_list cs).skipping ∧
        c ∉ (PullRequestChecks.from_list cs).cancel) := by
  have h := from_list_eq_filters cs
  refine ⟨?_, ?_, ?_⟩
  · rw [h]
    exact ⟨rfl, rfl, rfl, rfl, rfl⟩
  · rw [h]
    exact length_filter_buckets cs
  · intro c _ hrec
    rw [h]
    simp only [List.mem_filter, recognizedBucket] at *
    simp only [Bool.or_eq_false_iff] at hrec
    obtain ⟨⟨⟨⟨n1, n2⟩, n3⟩, n4⟩, n5⟩ := hrec
    exact ⟨fun hc => by simp [n1] at hc, fun hc => by simp [n2] at hc,
      fun hc => by simp [n3] at hc, fun hc => by simp [n4] at hc,
      fun hc => by simp [n5] at hc⟩

/-- C3 witness: the partition theorem evaluated at a concrete check list with
one check of every recognized tag plus one unrecognized tag. -/
theorem classifier_partition_witness :
    (PullRequestChecks.from_list
        [⟨"a", "pass"⟩, ⟨"b", "fail"⟩, ⟨"c", "pending"⟩, ⟨"d", "skipping"⟩,
         ⟨"e", "cancel"⟩, ⟨"f", "mystery"⟩]).passed = [⟨"a", "pass"⟩] :=
  (classifier_partition
    [⟨"a", "pass"⟩, ⟨"b", "fail"⟩, ⟨"c", "pending"⟩, ⟨"d", "skipping"⟩,
     ⟨"e", "cancel"⟩, ⟨"f", "mystery"⟩]).1.1.trans (by decide)

/-- C10: every element of the five bucket sequences of
`PullRequestChecks.from_list` is one of the raw input records, appended
unchanged — the buckets hold `RawCheck` (the dict `check_obj`), not the
`PullRequestCheck` dataclass value, which is only constructed to read the
bucket tag for dispatch. -/
theorem from_list_raw_elements (cs : List RawCheck) (c : RawCheck)
    (h : c ∈ (PullRequestChecks.from_list cs).passed ∨
      c ∈ (PullRequestChecks.from_list cs).failed ∨
      c ∈ (PullRequestChecks.from_list cs).pending ∨
      c ∈ (PullRequestChecks.from_list cs).skipping ∨
      c ∈ (PullRequestChecks.from_list cs).cancel) :
    c ∈ cs := by
  rw [from_list_eq_filters cs] at h
  simp only at h
  rcases h with h | h | h | h | h <;> exact List.mem_of_mem_filter h

/-- C10 witness: the raw-record membership theorem at a concrete input. -/
theorem from_list_raw_elements_witness :
    (⟨"build", "pass"⟩ : RawCheck) ∈ [(⟨"build", "pass"⟩ : RawCheck)] :=
  from_list_raw_elements [⟨"build", "pass"⟩] ⟨"build", "pass"⟩ (Or.inl (by decide))

theorem contains_iff {l : List String} {a : String} : l.contains a = true ↔ a ∈ l :=
  List.elem_iff

/- ### Check-readiness stage (C2) -/

/-- C2: a PR passes the check-readiness stage iff it has zero failed, zero
pending and zero cancelled checks and at least `MIN_PASSING_CHECKS` passed
checks; appending one pending check excludes it whatever the passed count; and
the two exclusion branches print distinct log messages. -/
theorem check_readiness_characterization (cfg : Config) (checks : PullRequestChecks) :
    (check_pr_outcome cfg checks = ReadyOutcome.pass ↔
      (checks.failed.length = 0 ∧ checks.pending.length = 0 ∧ checks.cancel.length = 0 ∧
        cfg.MIN_PASSING_CHECKS ≤ (checks.passed.length : Int))) ∧
    (∀ c : RawCheck,
      check_pr_outcome cfg
          ⟨checks.passed, checks.failed, checks.pending ++ [c], checks.skipping,
            checks.cancel⟩ ≠
        ReadyOutcome.pass) ∧
    (∀ n : Nat, ready_log ReadyOutcome.notAllGreen ≠ ready_log (ReadyOutcome.tooFewChecks n)) := by
  refine ⟨?_, ?_, ?_⟩
  · simp only [check_pr_outcome]
    split_ifs with h1 h2
    · refine iff_of_false (by simp) ?_
      rintro ⟨e1, e2, e3, -⟩
      rcases h1 with h | h | h
      · exact h e1
      · exact h e2
      · exact h e3
    · refine iff_of_false (by simp) ?_
      rintro ⟨-, -, -, e4⟩
      omega
    · push_neg at h1 h2
      exact iff_of_true rfl ⟨h1.1, h1.2.1, h1.2.2, h2⟩
  · intro c
    simp only [check_pr_outcome]
    have hne : (checks.pending ++ [c]).length ≠ 0 := by simp
    rw [if_pos (Or.inr (Or.inl hne))]
    simp
  · intro n h
    simp only [ready_log, Option.some.injEq] at h
    have hl := congrArg String.length h
    rw [String.length_append, String.length_append] at hl
    have e1 : ("skipped tests are not passing" : String).length = 29 := by decide
    have e2 : ("skipped passing but with too few checks (" : String).length = 41 := by decide
    have e3 : (")" : String).length = 1 := by decide
    omega

/-- C2 witness: a PR with one passed check and nothing failed, pending or
cancelled passes at threshold 1. -/
theorem check_readiness_characterization_witness :
    check_pr_outcome cfgScenario ⟨[⟨"build", "pass"⟩], [], [], [], []⟩ = ReadyOutcome.pass :=
  (check_readiness_characterization cfgScenario
    ⟨[⟨"build", "pass"⟩], [], [], [], []⟩).1.mpr (by decide)

/- ### Label-or-bot stage (C4) -/

/-- C4: a PR passes the label-or-bot stage iff its author is a bot whose login
is in `BOT_AUTHORS`, or the required-label set `LABELS` is empty, or every
required label is among the PR's label names; in particular an empty `LABELS`
lets every PR through.  The stage itself keeps exactly the PRs satisfying this
predicate, in order. -/
theorem match_labels_or_bot_characterization (cfg : Config) (pr : PullRequest) :
    (match_labels_or_bot_pass cfg pr = true ↔
      ((pr.author.is_bot = true ∧ pr.author.login ∈ cfg.BOT_AUTHORS) ∨
        cfg.LABELS = [] ∨
        ∀ req ∈ cfg.LABELS, req ∈ pr.labels.map Label.name)) ∧
    (cfg.LABELS = [] → match_labels_or_bot_pass cfg pr = true) ∧
    (∀ prs : List PullRequest,
      pr ∈ match_labels_or_bot cfg prs ↔
        pr ∈ prs ∧ match_labels_or_bot_pass cfg pr = true) := by
  have hiff : match_labels_or_bot_pass cfg pr = true ↔
      ((pr.author.is_bot = true ∧ pr.author.login ∈ cfg.BOT_AUTHORS) ∨
        cfg.LABELS = [] ∨ ∀ req ∈ cfg.LABELS, req ∈ pr.labels.map Label.name) := by
    simp only [match_labels_or_bot_pass]
    split_ifs with h
    · rw [Bool.and_eq_true, contains_iff] at h
      exact iff_of_true rfl (Or.inl h)
    · constructor
      · intro hb
        rw [Bool.or_eq_true] at hb
        rcases hb with hb | hb
        · exact Or.inr (Or.inl (List.isEmpty_iff.mp hb))
        · refine Or.inr (Or.inr ?_)
          intro req hreq
          have hnot := List.filter_eq_nil_iff.mp (List.isEmpty_iff.mp hb) req hreq
          have hcontains : (pr.labels.map Label.name).contains req = true := by
            cases hcase : (pr.labels.map Label.name).contains req with
            | false => exact absurd (by rw [hcase]; rfl) hnot
            | true => rfl
          exact contains_iff.mp hcontains
      · intro hb
        rw [Bool.or_eq_true]
        rcases hb with hb | hb | hb
        · rw [Bool.and_eq_true, contains_iff] at h
          exact absurd hb h
        · exact Or.inl (List.isEmpty_iff.mpr hb)
        · refine Or.inr ?_
          rw [List.isEmpty_iff, List.filter_eq_nil_iff]
          intro a ha
          have hc := contains_iff.mpr (hb a ha)
          simp only [hc]
          decide
  refine ⟨hiff, ?_, ?_⟩
  · intro hempty
    exact hiff.mpr (Or.inr (Or.inl hempty))
  · intro prs
    simp [match_labels_or_bot, List.mem_filter]

/-- C4 witness: with empty `LABELS` an unlabelled non-bot PR passes the
stage. -/
theorem match_labels_or_bot_characterization_witness :
    match_labels_or_bot_pass ⟨"m", [], true, [], 1⟩ prMain1 = true :=
  (match_labels_or_bot_characterization ⟨"m", [], true, [], 1⟩ prMain1).2.1 rfl

/- ### Merge coordinator (C1) -/

theorem lookup_append_isSome (m : MergedMap) (k : String) (q : PullRequest) (b : String) :
    ((m ++ [(k, q)]).lookup b).isSome = ((m.lookup b).isSome || b == k) := by
  induction m with
  | nil =>
    simp only [List.nil_append, List.lookup_cons, List.lookup_nil, Option.isSome_none,
      Bool.false_or]
    cases h : b == k <;> simp [h]
  | cons hd tl ih =>
    obtain ⟨k1, v1⟩ := hd
    simp only [List.cons_append, List.lookup_cons]
    cases h : b == k1 <;> simp [h, ih]

theorem coordinate_decision (ready : List PullRequest) (merged : MergedMap) (i : Nat)
    (pr : PullRequest) (hpr : ready[i]? = some pr) :
    (coordinate ready merged).1[i]? =
      some
        (if ((merged.lookup pr.baseRefName).isSome ||
              ((ready.take i).map PullRequest.baseRefName).contains pr.baseRefName) = true then
          Decision.rebased pr
        else Decision.merged pr) := by
  induction ready generalizing merged i with
  | nil => simp at hpr
  | cons hd rest ih =>
    cases i with
    | zero =>
      rw [List.getElem?_cons_zero, Option.some.injEq] at hpr
      subst hpr
      simp only [List.take_zero, List.map_nil]
      by_cases h : (merged.lookup hd.baseRefName).isSome
      · simp [coordinate, h]
      · simp [coordinate, h]
    | succ j =>
      rw [List.getElem?_cons_succ] at hpr
      by_cases h : (merged.lookup hd.baseRefName).isSome
      · simp only [coordinate, if_pos h, List.getElem?_cons_succ]
        rw [ih merged j hpr]
        by_cases hpb : (pr.baseRefName == hd.baseRefName) = true
        · have heq : pr.baseRefName = hd.baseRefName := eq_of_beq hpb
          rw [heq] at *
          simp [List.take_succ_cons, List.contains_cons, hpb, h]
        · have hne : pr.baseRefName ≠ hd.baseRefName := fun he => hpb (he ▸ beq_self_eq_true _)
          simp only [List.take_succ_cons, List.map_cons, List.contains_cons,
            beq_eq_false_iff_ne.mpr hne, Bool.false_or]
      · simp only [coordinate, if_neg h, List.getElem?_cons_succ]
        rw [ih (merged ++ [(hd.baseRefName, hd)]) j hpr, lookup_append_isSome]
        simp only [List.take_succ_cons, List.map_cons, List.contains_cons, Bool.or_assoc]

/-- C1: in the Merge Coordinator pass over the ready sequence, the PR at
position `i` is merged iff no earlier ready PR targets the same base branch
(it is the first in sequence order to claim that base), and is rebased iff an
earlier ready PR shares its base branch; moreover at most one PR per base
branch is merged during the run (two merged positions with equal base branch
coincide), so a later same-base PR is only ever processed after the earlier
one was merged. -/
theorem merge_coordinator_first_wins (ready : List PullRequest) (i : Nat) (pr : PullRequest)
    (hpr : ready[i]? = some pr) :
    ((coordinate ready []).1[i]? = some (Decision.merged pr) ↔
      pr.baseRefName ∉ (ready.take i).map PullRequest.baseRefName) ∧
    ((coordinate ready []).1[i]? = some (Decision.rebased pr) ↔
      pr.baseRefName ∈ (ready.take i).map PullRequest.baseRefName) ∧
    (∀ j q, ready[j]? = some q → q.baseRefName = pr.baseRefName →
      (coordinate ready []).1[j]? = some (Decision.merged q) →
      (coordinate ready []).1[i]? = some (Decision.merged pr) → j = i) := by
  have key : ∀ (k : Nat) (q : PullRequest), ready[k]? = some q →
      ((coordinate ready []).1[k]? = some (Decision.merged q) ↔
        q.baseRefName ∉ (ready.take k).map PullRequest.baseRefName) ∧
      ((coordinate ready []).1[k]? = some (Decision.rebased q) ↔
        q.baseRefName ∈ (ready.take k).map PullRequest.baseRefName) := by
    intro k q hq
    have hdec := coordinate_decision ready [] k q hq
    simp only [List.lookup_nil, Option.isSome_none, Bool.false_or] at hdec
    by_cases hc : ((ready.take k).map PullRequest.baseRefName).contains q.baseRefName = true
    · rw [if_pos hc] at hdec
      refine ⟨iff_of_false ?_ ?_, iff_of_true hdec (contains_iff.mp hc)⟩
      · rw [hdec]
        simp
      · exact fun hnm => hnm (contains_iff.mp hc)
    · rw [if_neg hc] at hdec
      have hmem : q.baseRefName ∉ (ready.take k).map PullRequest.baseRefName := fun hm =>
        hc (contains_iff.mpr hm)
      refine ⟨iff_of_true hdec hmem, iff_of_false ?_ ?_⟩
      · rw [hdec]
        simp
      · exact fun hm => hmem hm
  refine ⟨(key i pr hpr).1, (key i pr hpr).2, ?_⟩
  intro j q hq hbase hjm him
  by_contra hne
  rcases Nat.lt_or_ge j i with hlt | hge
  · have hmem : q.baseRefName ∈ (ready.take i).map PullRequest.baseRefName := by
      have : (ready.take i)[j]? = some q := by
        rw [List.getElem?_take, if_pos hlt]
        exact hq
      obtain ⟨hlen, helem⟩ := List.getElem?_eq_some_iff.mp this
      exact helem ▸ List.mem_map_of_mem PullRequest.baseRefName (List.getElem_mem hlen)
    exact ((key i pr hpr).1.mp him) (hbase ▸ hmem)
  · have hlt : i < j := Nat.lt_of_le_of_ne hge (fun h => hne h.symm)
    have hmem : pr.baseRefName ∈ (ready.take j).map PullRequest.baseRefName := by
      have : (ready.take j)[i]? = some pr := by
        rw [List.getElem?_take, if_pos hlt]
        exact hpr
      obtain ⟨hlen, helem⟩ := List.getElem?_eq_some_iff.mp this
      exact helem ▸ List.mem_map_of_mem PullRequest.baseRefName (List.getElem_mem hlen)
    exact ((key j q hq).1.mp hjm) (hbase.symm ▸ hmem)

/-- C1 witness: with two ready PRs both targeting "main", the second is
rebased. -/
theorem merge_coordinator_first_wins_witness :
    (coordinate [prMain1, prMain2] []).1[1]? = some (Decision.rebased prMain2) :=
  ((merge_coordinator_first_wins [prMain1, prMain2] 1 prMain2 (by decide)).2.1).mpr (by decide)

/- ### Ordering through the pipeline (C6) -/

theorem sortByNumber_pairwise (listed : List ListedPR) :
    List.Pairwise (fun a b : ListedPR => a.number ≤ b.number) (sortByNumber listed) := by
  haveI : IsTotal ListedPR (fun a b : ListedPR => a.number ≤ b.number) :=
    ⟨fun a b => Int.le_total a.number b.number⟩
  haveI : IsTrans ListedPR (fun a b : ListedPR => a.number ≤ b.number) :=
    ⟨fun a b c hab hbc => le_trans hab hbc⟩
  exact List.sorted_insertionSort _ listed

theorem check_prs_ready_number_sublist (cfg : Config) (fetch : Int → List RawCheck)
    (prs : List PullRequest) :
    ((check_prs_ready cfg fetch prs).map PullRequest.number).Sublist
      (prs.map PullRequest.number) := by
  induction prs with
  | nil => simp [check_prs_ready]
  | cons q rest ih =>
    simp only [check_prs_ready, List.filterMap_cons, List.map_cons] at *
    by_cases h : check_pr_outcome cfg (PullRequestChecks.from_list (fetch q.number)) =
        ReadyOutcome.pass
    · simp only [if_pos h, List.map_cons]
      exact List.Sublist.cons₂ _ ih
    · simp only [if_neg h]
      exact ih.cons _

/-- C6: the listing stage produces pull requests in ascending number order;
the label-or-bot and mergeability stages keep a subsequence of their input and
the check-readiness stage keeps a subsequence of the numbers; consequently the
ready sequence reaching the Merge Coordinator is in ascending
pull-request-number order. -/
theorem ready_sequence_ascending (cfg : Config) (listed : List ListedPR)
    (view : Int → String × String × PullRequestAuthor) (fetch : Int → List RawCheck) :
    List.Pairwise (fun a b : PullRequest => a.number ≤ b.number)
      (get_pull_requests listed view) ∧
    (∀ prs : List PullRequest, (match_labels_or_bot cfg prs).Sublist prs) ∧
    (∀ prs : List PullRequest, (mergeable_prs prs).Sublist prs) ∧
    (∀ prs : List PullRequest,
      ((check_prs_ready cfg fetch prs).map PullRequest.number).Sublist
        (prs.map PullRequest.number)) ∧
    List.Pairwise (fun a b : PullRequest => a.number ≤ b.number)
      (check_prs_ready cfg fetch
        (mergeable_prs (match_labels_or_bot cfg (get_pull_requests listed view)))) := by
  have hlist : List.Pairwise (fun a b : PullRequest => a.number ≤ b.number)
      (get_pull_requests listed view) := by
    rw [get_pull_requests, List.pairwise_map]
    exact (sortByNumber_pairwise listed).imp (fun hab => hab)
  refine ⟨hlist, fun prs => List.filter_sublist prs, fun prs => List.filter_sublist prs,
    fun prs => check_prs_ready_number_sublist cfg fetch prs, ?_⟩
  have h2 : List.Pairwise (fun a b : PullRequest => a.number ≤ b.number)
      (mergeable_prs (match_labels_or_bot cfg (get_pull_requests listed view))) :=
    List.Pairwise.sublist ((List.filter_sublist _).trans (List.filter_sublist _)) hlist
  rw [check_prs_ready, List.pairwise_filterMap]
  refine h2.imp ?_
  intro a b hab x hx y hy
  simp only at hx hy
  have hxa : x.number = a.number := by
    split at hx
    · rw [Option.mem_def, Option.some.injEq] at hx
      rw [← hx]
      rfl
    · simp at hx
  have hyb : y.number = b.number := by
    split at hy
    · rw [Option.mem_def, Option.some.injEq] at hy
      rw [← hy]
      rfl
    · simp at hy
  rw [hxa, hyb]
  exact hab

/-- C6 witness: a listing given out of order comes back ascending. -/
theorem ready_sequence_ascending_witness :
    List.Pairwise (fun a b : PullRequest => a.number ≤ b.number)
      (get_pull_requests [⟨2, [], "b"⟩, ⟨1, [], "a"⟩]
        (fun _ => ("MERGEABLE", "main", exAuthor))) :=
  (ready_sequence_ascending cfgScenario [⟨2, [], "b"⟩, ⟨1, [], "a"⟩]
    (fun _ => ("MERGEABLE", "main", exAuthor)) (fun _ => [])).1

/- ### Dry-run equivalence (C5) -/

theorem sh_dry (exec : String → Int × String × String) (cmd : String) :
    sh exec cmd true = (Except.ok "", [TraceEvent.wouldRun cmd]) := rfl

theorem sh_live_trace (exec : String → Int × String × String) (cmd : String) :
    (sh exec cmd false).2 = [TraceEvent.ran cmd] := by
  simp only [sh, Bool.false_eq_true, if_false]
  split <;> rfl

theorem coordinate_one_dry (cfg : Config) (w : World) (merged : MergedMap)
    (pr : PullRequest) (hdry : cfg.DRY_RUN = true) :
    coordinate_one cfg w merged pr =
      if (merged.lookup pr.baseRefName).isSome then
        (Except.ok merged, [TraceEvent.wouldRun (rebase_cmd pr.number)])
      else
        (Except.ok (merged ++ [(pr.baseRefName, pr)]),
          [TraceEvent.wouldRun (review_cmd cfg pr.number),
            TraceEvent.wouldRun (merge_cmd pr.number)]) := by
  by_cases h : (merged.lookup pr.baseRefName).isSome <;>
    simp [coordinate_one, hdry, sh_dry, h, Except.map]

theorem coordinate_one_live (cfg : Config) (w : World) (merged : MergedMap)
    (pr : PullRequest) (hdry : cfg.DRY_RUN = false) (hok : ∀ c, (w.exec c).1 = 0) :
    coordinate_one cfg w merged pr =
      if (merged.lookup pr.baseRefName).isSome then
        (Except.ok merged, [TraceEvent.ran (rebase_cmd pr.number)])
      else
        (Except.ok (merged ++ [(pr.baseRefName, pr)]),
          [TraceEvent.ran (review_cmd cfg pr.number),
            TraceEvent.ran (merge_cmd pr.number)]) := by
  by_cases h : (merged.lookup pr.baseRefName).isSome <;>
    simp [coordinate_one, hdry, sh, hok, h, Except.map]

theorem coordinate_all_dry_fst (cfg : Config) (w : World) (ready : List PullRequest)
    (merged : MergedMap) (hdry : cfg.DRY_RUN = true) :
    (coordinate_all cfg w ready merged).1 = Except.ok (coordinate ready merged).2 := by
  induction ready generalizing merged with
  | nil => simp [coordinate_all, coordinate]
  | cons pr rest ih =>
    by_cases h : (merged.lookup pr.baseRefName).isSome <;>
      simp [coordinate_all, coordinate_one_dry cfg w merged pr hdry, h, coordinate, ih]

theorem coordinate_all_live_fst (cfg : Config) (w : World) (ready : List PullRequest)
    (merged : MergedMap) (hdry : cfg.DRY_RUN = false) (hok : ∀ c, (w.exec c).1 = 0) :
    (coordinate_all cfg w ready merged).1 = Except.ok (coordinate ready merged).2 := by
  induction ready generalizing merged with
  | nil => simp [coordinate_all, coordinate]
  | cons pr rest ih =>
    by_cases h : (merged.lookup pr.baseRefName).isSome <;>
      simp [coordinate_all, coordinate_one_live cfg w merged pr hdry hok, h, coordinate, ih]

theorem coordinate_all_dry_events (cfg : Config) (w : World) (ready : List PullRequest)
    (merged : MergedMap) (hdry : cfg.DRY_RUN = true) :
    ∀ e ∈ (coordinate_all cfg w ready merged).2, mutationDryEvent cfg e := by
  induction ready generalizing merged with
  | nil => simp [coordinate_all]
  | cons pr rest ih =>
    intro e he
    by_cases h : (merged.lookup pr.baseRefName).isSome
    · simp only [coordinate_all, coordinate_one_dry cfg w merged pr hdry, if_pos h,
        List.mem_append, List.mem_singleton] at he
      rcases he with he | he
      · exact Or.inr (Or.inr ⟨pr.number, he⟩)
      · exact ih merged e he
    · simp only [coordinate_all, coordinate_one_dry cfg w merged pr hdry, if_neg h] at he
      rw [List.mem_append] at he
      rcases he with he | he
      · rw [List.mem_cons, List.mem_singleton] at he
        rcases he with he | he
        · exact Or.inl ⟨pr.number, he⟩
        · exact Or.inr (Or.inl ⟨pr.number, he⟩)
      · exact ih (merged ++ [(pr.baseRefName, pr)]) e he

/-- C5: with `DRY_RUN` set, the coordinator performs no live execution (every
trace event of the run is a `wouldRun` log of one of the three mutating
commands), and its bookkeeping result — the `merged` mapping from base branch
to the PR that claimed it — is exactly the pure per-base-branch decision
structure, identical to what a live run over the same ready sequence produces
when its commands succeed. -/
theorem dry_run_equivalence (cfg : Config) (w : World) (ready : List PullRequest)
    (merged : MergedMap) (hdry : cfg.DRY_RUN = true) (hok : ∀ c, (w.exec c).1 = 0) :
    (coordinate_all cfg w ready merged).1 =
        (coordinate_all (setDry cfg false) w ready merged).1 ∧
    (coordinate_all cfg w ready merged).1 = Except.ok (coordinate ready merged).2 ∧
    ∀ e ∈ (coordinate_all cfg w ready merged).2, mutationDryEvent cfg e := by
  have hlive : (coordinate_all (setDry cfg false) w ready merged).1 =
      Except.ok (coordinate ready merged).2 := by
    have : (setDry cfg false).DRY_RUN = false := rfl
    have hrv : ∀ n, review_cmd (setDry cfg false) n = review_cmd cfg n := fun _ => rfl
    exact coordinate_all_live_fst (setDry cfg false) w ready merged rfl hok
  have hdryr := coordinate_all_dry_fst cfg w ready merged hdry
  exact ⟨hdryr.trans hlive.symm, hdryr, coordinate_all_dry_events cfg w ready merged hdry⟩

/-- C5 witness: the equivalence at a concrete two-PR ready sequence in the
dry-run scenario configuration with an all-success world. -/
theorem dry_run_equivalence_witness :
    (coordinate_all cfgScenarioDry wEmpty [prMain1, prMain2] []).1 =
      Except.ok (coordinate [prMain1, prMain2] []).2 :=
  (dry_run_equivalence cfgScenarioDry wEmpty [prMain1, prMain2] [] rfl
    (fun _ => rfl)).2.1

/- ### Dry-run frame (C9) -/

theorem coordinate_one_dry_events (cfg : Config) (w : World) (merged : MergedMap)
    (pr : PullRequest) (hdry : cfg.DRY_RUN = true) :
    ∀ e ∈ (coordinate_one cfg w merged pr).2, mutationDryEvent cfg e := by
  intro e he
  rw [coordinate_one_dry cfg w merged pr hdry] at he
  by_cases h : (merged.lookup pr.baseRefName).isSome
  · rw [if_pos h] at he
    rw [List.mem_singleton] at he
    exact Or.inr (Or.inr ⟨pr.number, he⟩)
  · rw [if_neg h] at he
    rw [List.mem_cons, List.mem_singleton] at he
    rcases he with he | he
    · exact Or.inl ⟨pr.number, he⟩
    · exact Or.inr (Or.inl ⟨pr.number, he⟩)

theorem runPR_dry_events (cfg : Config) (w : World) (merged : MergedMap) (d : ListedPR)
    (hdry : cfg.DRY_RUN = true) :
    ∀ e ∈ (runPR cfg w merged d).2, queryEvent e ∨ mutationDryEvent cfg e := by
  intro e he
  rw [runPR] at he
  cases hv : sh w.exec (view_cmd d.number) false with
  | mk rv t1 =>
    have ht1 : t1 = [TraceEvent.ran (view_cmd d.number)] := by
      have h2 := sh_live_trace w.exec (view_cmd d.number)
      rw [hv] at h2
      exact h2
    rw [hv, ht1] at he
    cases rv with
    | error err =>
      rw [List.mem_singleton] at he
      exact Or.inl (Or.inr (Or.inl ⟨d.number, he⟩))
    | ok out =>
      simp only at he
      split at he
      · rw [List.mem_singleton] at he
        exact Or.inl (Or.inr (Or.inl ⟨d.number, he⟩))
      · split at he
        · rw [List.mem_singleton] at he
          exact Or.inl (Or.inr (Or.inl ⟨d.number, he⟩))
        · cases hc : sh w.exec (checks_cmd d.number) false with
          | mk rc t2 =>
            have ht2 : t2 = [TraceEvent.ran (checks_cmd d.number)] := by
              have h3 := sh_live_trace w.exec (checks_cmd d.number)
              rw [hc] at h3
              exact h3
            rw [hc, ht2] at he
            cases rc with
            | error err =>
              rw [List.mem_append, List.mem_singleton, List.mem_singleton] at he
              rcases he with he | he
              · exact Or.inl (Or.inr (Or.inl ⟨d.number, he⟩))
              · exact Or.inl (Or.inr (Or.inr ⟨d.number, he⟩))
            | ok cout =>
              simp only at he
              split at he
              · rw [List.mem_append, List.mem_append, List.mem_singleton,
                  List.mem_singleton] at he
                rcases he with (he | he) | he
                · exact Or.inl (Or.inr (Or.inl ⟨d.number, he⟩))
                · exact Or.inl (Or.inr (Or.inr ⟨d.number, he⟩))
                · exact Or.inr (coordinate_one_dry_events cfg w merged _ hdry e he)
              · rw [List.mem_append, List.mem_singleton, List.mem_singleton] at he
                rcases he with he | he
                · exact Or.inl (Or.inr (Or.inl ⟨d.number, he⟩))
                · exact Or.inl (Or.inr (Or.inr ⟨d.number, he⟩))

theorem processList_dry_events (cfg : Config) (w : World) (listed : List ListedPR)
    (merged : MergedMap) (hdry : cfg.DRY_RUN = true) :
    ∀ e ∈ (processList cfg w listed merged).2, queryEvent e ∨ mutationDryEvent cfg e := by
  induction listed generalizing merged with
  | nil => simp [processList]
  | cons d rest ih =>
    intro e he
    rw [processList] at he
    cases hr : runPR cfg w merged d with
    | mk r t =>
      rw [hr] at he
      cases r with
      | error err =>
        refine runPR_dry_events cfg w merged d hdry e ?_
        rw [hr]
        exact he
      | ok m =>
        simp only at he
        rw [List.mem_append] at he
        rcases he with he | he
        · refine runPR_dry_events cfg w merged d hdry e ?_
          rw [hr]
          exact he
        · exact ih m e he

/-- C9: dry-run mode suppresses only the three mutating commands.  In a run
with `DRY_RUN` set, every trace event is either a live execution (`ran`) of
the listing, per-PR view, or per-PR checks query — exactly as in live mode —
or a `wouldRun` log of the approval-comment, merge, or rebase command. -/
theorem dry_run_frame (cfg : Config) (w : World) (hdry : cfg.DRY_RUN = true) :
    ∀ e ∈ (process_pull_requests cfg w).2, queryEvent e ∨ mutationDryEvent cfg e := by
  intro e he
  rw [process_pull_requests] at he
  cases hs : sh w.exec list_cmd false with
  | mk r t0 =>
    have ht0 : t0 = [TraceEvent.ran list_cmd] := by
      have h2 := sh_live_trace w.exec list_cmd
      rw [hs] at h2
      exact h2
    rw [hs, ht0] at he
    cases r with
    | error err =>
      rw [List.mem_singleton] at he
      exact Or.inl (Or.inl he)
    | ok out =>
      simp only at he
      rw [List.mem_append, List.mem_singleton] at he
      rcases he with he | he
      · exact Or.inl (Or.inl he)
      · exact processList_dry_events cfg w _ [] hdry e he

/-- C9 witness: in the dry scenario configuration over the all-success empty
world, the trace consists of the live listing query alone, and the theorem
classifies it as a query event. -/
theorem dry_run_frame_witness :
    queryEvent (TraceEvent.ran list_cmd) ∨ mutationDryEvent cfgScenarioDry
      (TraceEvent.ran list_cmd) :=
  dry_run_frame cfgScenarioDry wEmpty rfl (TraceEvent.ran list_cmd) (by decide)

/- ### Fail-fast error propagation (C7) -/

theorem okEvents_append (w : World) (t1 t2 : List TraceEvent) :
    okEvents w (t1 ++ t2) ↔ okEvents w t1 ∧ okEvents w t2 := by
  constructor
  · intro h
    exact ⟨fun c hc => h c (List.mem_append.mpr (Or.inl hc)),
      fun c hc => h c (List.mem_append.mpr (Or.inr hc))⟩
  · rintro ⟨h1, h2⟩ c hc
    rcases List.mem_append.mp hc with hc | hc
    · exact h1 c hc
    · exact h2 c hc

theorem sh_ok_events (w : World) (cmd : String) (d : Bool) (s : String)
    (h : (sh w.exec cmd d).1 = Except.ok s) : okEvents w (sh w.exec cmd d).2 := by
  cases d with
  | true =>
    intro c hc
    rw [sh_dry] at hc
    rw [List.mem_singleton] at hc
    exact absurd hc (by simp)
  | false =>
    intro c hc
    rw [sh_live_trace, List.mem_singleton] at hc
    have hcmd : c = cmd := by
      injection hc
    subst hcmd
    by_cases hrc : (w.exec c).1 ≠ 0
    · rw [sh, if_neg (by simp), if_pos hrc] at h
      exact absurd h (by simp)
    · omega

theorem coordinate_one_ok_events (cfg : Config) (w : World) (merged : MergedMap)
    (pr : PullRequest) (p : Except String MergedMap × List TraceEvent)
    (hp : coordinate_one cfg w merged pr = p) (m : MergedMap)
    (hm : p.1 = Except.ok m) : okEvents w p.2 := by
  rw [coordinate_one] at hp
  by_cases hl : (merged.lookup pr.baseRefName).isSome
  · rw [if_pos hl] at hp
    subst hp
    cases hsh : (sh w.exec (rebase_cmd pr.number) cfg.DRY_RUN).1 with
    | error e =>
      rw [hsh] at hm
      exact absurd hm (by simp [Except.map])
    | ok s => exact sh_ok_events w _ _ s hsh
  · rw [if_neg hl] at hp
    split at hp
    next e t1 heq =>
      subst hp
      exact absurd hm (by simp)
    next s1 t1 heq =>
      split at hp
      next e t2 heq2 =>
        subst hp
        exact absurd hm (by simp)
      next s2 t2 heq2 =>
        subst hp
        refine (okEvents_append w t1 t2).mpr ⟨?_, ?_⟩
        · have hx := sh_ok_events w (review_cmd cfg pr.number) cfg.DRY_RUN s1 (by rw [heq])
          rw [heq] at hx
          exact hx
        · have hx := sh_ok_events w (merge_cmd pr.number) cfg.DRY_RUN s2 (by rw [heq2])
          rw [heq2] at hx
          exact hx

theorem runPR_ok_events (cfg : Config) (w : World) (merged : MergedMap) (d : ListedPR)
    (p : Except String MergedMap × List TraceEvent) (hp : runPR cfg w merged d = p)
    (m : MergedMap) (hm : p.1 = Except.ok m) : okEvents w p.2 := by
  rw [runPR] at hp
  split at hp
  next e t1 heq =>
    subst hp
    exact absurd hm (by simp)
  next out t1 heq =>
    have h1 : okEvents w t1 := by
      have hx := sh_ok_events w (view_cmd d.number) false out (by rw [heq])
      rw [heq] at hx
      exact hx
    simp only at hp
    split at hp
    · subst hp
      exact h1
    · split at hp
      · subst hp
        exact h1
      · split at hp
        next e t2 heq2 =>
          subst hp
          exact absurd hm (by simp)
        next cout t2 heq2 =>
          have h2 : okEvents w t2 := by
            have hx := sh_ok_events w (checks_cmd d.number) false cout (by rw [heq2])
            rw [heq2] at hx
            exact hx
          split at hp
          · subst hp
            refine (okEvents_append w _ _).mpr ⟨(okEvents_append w t1 t2).mpr ⟨h1, h2⟩, ?_⟩
            exact coordinate_one_ok_events cfg w merged _ _ rfl m hm
          · subst hp
            exact (okEvents_append w t1 t2).mpr ⟨h1, h2⟩

theorem processList_ok_events (cfg : Config) (w : World) (listed : List ListedPR) :
    ∀ (merged : MergedMap) (p : Except String MergedMap × List TraceEvent),
      processList cfg w listed merged = p →
      ∀ m : MergedMap, p.1 = Except.ok m → okEvents w p.2 := by
  induction listed with
  | nil =>
    intro merged p hp m hm
    rw [processList] at hp
    subst hp
    intro c hc
    exact absurd hc (by simp)
  | cons d rest ih =>
    intro merged p hp m hm
    rw [processList] at hp
    split at hp
    next e t heq =>
      subst hp
      exact absurd hm (by simp)
    next mm t heq =>
      subst hp
      refine (okEvents_append w t _).mpr ⟨?_, ?_⟩
      · exact runPR_ok_events cfg w merged d (Except.ok mm, t) heq mm rfl
      · exact ih mm _ rfl m hm

/-- C7: in live mode `sh` raises on non-zero exit with a message carrying the
command and the captured stderr, and returns the stripped captured stdout on
zero exit; no stage retries or recovers, so a run that completed successfully
never saw a live command fail — equivalently, any live command failure aborts
the whole `process_pull_requests` run. -/
theorem sh_fail_fast (cfg : Config) (w : World) (cmd : String) :
    ((w.exec cmd).1 ≠ 0 →
      (sh w.exec cmd false).1 =
        Except.error ("Error running command: " ++ cmd ++ "\nError: " ++ (w.exec cmd).2.2)) ∧
    ((w.exec cmd).1 = 0 → (sh w.exec cmd false).1 = Except.ok (pyStrip (w.exec cmd).2.1)) ∧
    (∀ m : MergedMap, (process_pull_requests cfg w).1 = Except.ok m →
      okEvents w (process_pull_requests cfg w).2) := by
  refine ⟨?_, ?_, ?_⟩
  · intro h
    rw [sh, if_neg (by simp), if_pos h]
  · intro h
    rw [sh, if_neg (by simp), if_neg (by omega)]
  · intro m hm
    rw [process_pull_requests] at hm ⊢
    generalize hq : (match sh w.exec list_cmd false with
      | (Except.error e, t0) => (Except.error e, t0)
      | (Except.ok out, t0) =>
        ((processList cfg w (sortByNumber (w.parseListOutput out)) []).1,
         t0 ++ (processList cfg w (sortByNumber (w.parseListOutput out)) []).2)) = p at hm ⊢
    split at hq
    next e t0 heq =>
      subst hq
      exact absurd hm (by simp)
    next out t0 heq =>
      subst hq
      refine (okEvents_append w t0 _).mpr ⟨?_, ?_⟩
      · have hx := sh_ok_events w list_cmd false out (by rw [heq])
        rw [heq] at hx
        exact hx
      · exact processList_ok_events cfg w _ [] _ rfl m hm

/-- C7 witness: against a world whose commands all fail with stderr "boom",
`sh` returns the error carrying the command and the stderr text. -/
theorem sh_fail_fast_witness :
    (sh wFailing.exec "gh pr list" false).1 =
      Except.error ("Error running command: " ++ "gh pr list" ++ "\nError: " ++ "boom") :=
  (sh_fail_fast cfgScenario wFailing "gh pr list").1 (by decide)

/- ### Two-PR scenario (C8) -/

/-- C8: with open PRs 5 (labelled "automerge") and 7 (unlabelled), both
mergeable into "main" with two passing checks, required labels ["automerge"],
empty `BOT_AUTHORS` and `MIN_PASSING_CHECKS = 1`, the run merges PR 5 (its
review and merge commands execute and it claims base branch "main") while
PR 7 is excluded at the label-or-bot stage: after its detail fetch no further
command concerns it — its checks are never fetched and it is neither merged
nor rebased. -/
theorem two_pr_scenario :
    (process_pull_requests cfgScenario wScenario).1 =
      Except.ok [("main",
        ⟨5, exAuthor, "five", [⟨"automerge"⟩], "MERGEABLE", "main",
          some ⟨[⟨"build", "pass"⟩, ⟨"test", "pass"⟩], [], [], [], []⟩⟩)] ∧
    (process_pull_requests cfgScenario wScenario).2 =
      [TraceEvent.ran list_cmd,
       TraceEvent.ran (view_cmd 5),
       TraceEvent.ran (checks_cmd 5),
       TraceEvent.ran (review_cmd cfgScenario 5),
       TraceEvent.ran (merge_cmd 5),
       TraceEvent.ran (view_cmd 7)] ∧
    TraceEvent.ran (merge_cmd 7) ∉ (process_pull_requests cfgScenario wScenario).2 ∧
    TraceEvent.ran (rebase_cmd 7) ∉ (process_pull_requests cfgScenario wScenario).2 ∧
    TraceEvent.ran (checks_cmd 7) ∉ (process_pull_requests cfgScenario wScenario).2 := by
  refine ⟨by decide, by decide, by decide, by decide, by decide⟩
